import Mathlib

/-!
Verification development for the trahn-coin-trader grid trading backend.

The Go source is shallowly embedded in Lean 4:
* `float64` values are modelled as `ℚ` (exact arithmetic; the claims under
  study are about the algebraic relationships, not rounding),
* Go `int` is modelled as `ℤ` (or `ℕ` for lengths),
* Go strings relevant to parsing logic are modelled as `List Char`,
* fallible functions return `Except`,
* nondeterministic inputs (random slippage samples, HTTP attempt outcomes,
  clock readings, database lookups) become explicit parameters.

Sources embedded:
* internal/strategy/grid.go   (grid engine)
* internal/bot/gridbot.go     (opposite-level reset, paper swap execution)
* internal/scheduler/sr.go    (paper wallet, random slippage)
* internal/risk/guardian.go   (risk guardian)
* internal/models  SupportResistance.HasChangedSignificantly
* internal/repository  SRRepo.CheckSignificantChange
* internal/httputil  Do (retry executor)
* internal/api/server.go      (auth + CORS middleware)
* internal/external/dune.go   (S/R client cache)
-/

/-- Side of a grid level, `"buy"` / `"sell"` in the Go source. -/
inductive Side where
  | buy
  | sell
deriving DecidableEq, Repr

/-- strategy.GridLevel. `FilledAt` timestamps and `TxHash` strings are
opaque to all claims, so they are modelled as `Option ℕ` / `Option String`. -/
structure GridLevel where
  index : ℤ
  price : ℚ
  side : Side
  quantity : ℚ
  filled : Bool
  filledAt : Option ℕ
  txHash : Option String
deriving DecidableEq, Repr

/-- strategy.GridParams. -/
structure GridParams where
  centerPrice : ℚ
  levelCount : ℤ
  spacingPercent : ℚ
  amountPerGrid : ℚ
deriving DecidableEq, Repr

/-- The geometric ratio `1 + p.SpacingPercent/100` from CalculateGridLevels. -/
def gridRatio (p : GridParams) : ℚ :=
  1 + p.spacingPercent / 100

/-- The loop indices of CalculateGridLevels: `i` from `-halfLevels` to
`+halfLevels`, skipping `i = 0` when the level count is even
(`halfLevels := levelCount / 2`, `even := levelCount % 2 == 0`). -/
def gridIndices (n : ℤ) : List ℤ :=
  ((List.range (2 * (n / 2).toNat + 1)).map (fun k : ℕ => (k : ℤ) - n / 2)).filter
    (fun i => decide (¬(i = 0 ∧ n % 2 = 0)))

/-- One loop iteration of CalculateGridLevels: price, side and quantity of
the level generated for index `i` (grid `Index` is assigned later). -/
def mkGridLevel (p : GridParams) (i : ℤ) : GridLevel :=
  let levelPrice := p.centerPrice * gridRatio p ^ i
  { index := 0
    price := levelPrice
    side := if i < 0 then Side.buy else Side.sell
    quantity := p.amountPerGrid / levelPrice
    filled := false
    filledAt := none
    txHash := none }

/-- The final index-assignment loop of CalculateGridLevels:
`grid[i].Index = i` after the sort. -/
def assignIndices (grid : List GridLevel) : List GridLevel :=
  grid.enum.map (fun ki => { ki.2 with index := (ki.1 : ℤ) })

/-- strategy.CalculateGridLevels. The Go `sort.Slice` orders by ascending
price; it is embedded as `List.insertionSort` on the same key (the keys are
pairwise distinct for all accepted parameters, so every comparison sort
produces the same list). -/
def CalculateGridLevels (p : GridParams) : Except String (List GridLevel) :=
  if p.centerPrice ≤ 0 then .error "center price must be positive"
  else if p.levelCount < 2 then .error "level count must be at least 2"
  else if p.spacingPercent ≤ 0 then .error "spacing percent must be positive"
  else if p.amountPerGrid ≤ 0 then .error "amount per grid must be positive"
  else
    .ok (assignIndices
      (List.insertionSort (fun a b => a.price ≤ b.price)
        ((gridIndices p.levelCount).map (mkGridLevel p))))

/-- strategy.FindTriggeredLevel: scan the slice in order, skip filled levels,
return the first level with `buy ∧ P ≤ price` or `sell ∧ P ≥ price`. -/
def FindTriggeredLevel (currentPrice : ℚ) : List GridLevel → Option GridLevel
  | [] => none
  | l :: rest =>
    if l.filled then FindTriggeredLevel currentPrice rest
    else if l.side = Side.buy ∧ currentPrice ≤ l.price then some l
    else if l.side = Side.sell ∧ l.price ≤ currentPrice then some l
    else FindTriggeredLevel currentPrice rest

/-- The trigger condition of FindTriggeredLevel for a single level. -/
def triggers (currentPrice : ℚ) (l : GridLevel) : Prop :=
  l.filled = false ∧
    ((l.side = Side.buy ∧ currentPrice ≤ l.price) ∨
     (l.side = Side.sell ∧ l.price ≤ currentPrice))

instance (currentPrice : ℚ) (l : GridLevel) : Decidable (triggers currentPrice l) := by
  unfold triggers; infer_instance

/-- The candidate opposite index computed by GetOppositeLevelIndex:
`Index + 1` for a buy, `Index - 1` otherwise. -/
def oppIdx (filledLevel : GridLevel) : ℤ :=
  if filledLevel.side = Side.buy then filledLevel.index + 1 else filledLevel.index - 1

/-- strategy.GetOppositeLevelIndex. -/
def GetOppositeLevelIndex (filledLevel : GridLevel) (gridLength : ℕ) : Option ℤ :=
  if 0 ≤ oppIdx filledLevel ∧ oppIdx filledLevel < (gridLength : ℤ) then
    some (oppIdx filledLevel)
  else none

/-- The clearing performed by GridBot.resetOppositeLevel on the adjacent
level: `Filled = false`, `FilledAt = nil`, `TxHash = nil`. -/
def clearFill (adj : GridLevel) : GridLevel :=
  { adj with filled := false, filledAt := none, txHash := none }

/-- GridBot.resetOppositeLevel: look up the opposite index; if it is in
range and that level is currently filled, clear its fill state, otherwise
leave the grid untouched. -/
def resetOppositeLevel (grid : List GridLevel) (filledLevel : GridLevel) : List GridLevel :=
  match GetOppositeLevelIndex filledLevel grid.length with
  | none => grid
  | some idx =>
    match grid.get? idx.toNat with
    | none => grid
    | some adj => if adj.filled then grid.set idx.toNat (clearFill adj) else grid

/-- strategy.CalculateSRChange. -/
def CalculateSRChange (newMidpoint oldMidpoint : ℚ) : ℚ :=
  if oldMidpoint = 0 then 100
  else |(newMidpoint - oldMidpoint) / oldMidpoint * 100|

/-- models.SupportResistance, restricted to the numeric fields the
change-detection logic reads. -/
structure SupportResistance where
  support : ℚ
  resistance : ℚ
  midpoint : ℚ
deriving DecidableEq, Repr

/-- models.SupportResistance.HasChangedSignificantly. The Go receiver takes
`previous *SupportResistance`; the nil pointer is `none`. -/
def HasChangedSignificantly (sr : SupportResistance) (previous : Option SupportResistance)
    (thresholdPercent : ℚ) : Bool :=
  match previous with
  | none => true
  | some prev =>
    if prev.midpoint = 0 then true
    else decide (|(sr.midpoint - prev.midpoint) / prev.midpoint * 100| ≥ thresholdPercent)

/-- repository.ChangeAnalysis (reason strings are irrelevant to the claims
and elided). -/
structure ChangeAnalysis where
  hasChanged : Bool
  changePercent : Option ℚ
  previous : Option SupportResistance
deriving DecidableEq, Repr

/-- repository.SRRepo.CheckSignificantChange. The database lookup
`GetLatest` is passed in as `previous` (`none` when the table is empty). -/
def CheckSignificantChange (previous : Option SupportResistance)
    (newSR : SupportResistance) (thresholdPercent : ℚ) : ChangeAnalysis :=
  match previous with
  | none => { hasChanged := true, changePercent := none, previous := none }
  | some prev =>
    let pct := |(newSR.midpoint - prev.midpoint) / prev.midpoint * 100|
    { hasChanged := decide (pct ≥ thresholdPercent)
      changePercent := some pct
      previous := some prev }

/-- risk.Limits. -/
structure Limits where
  maxDailyTrades : ℤ
  maxPositionSizeUSD : ℚ
  stopLossPercent : ℚ
  takeProfitPercent : ℚ
deriving DecidableEq, Repr

/-- The distinct error returns of the risk guardian. -/
inductive RiskError where
  | positionTooLarge
  | counterUnavailable
  | dailyLimitReached
  | stopLoss
  | takeProfit
deriving DecidableEq, Repr

/-- risk.Guardian.PreTradeCheck. The `DailyTradeCounter` dependency is
passed in: `none` models a nil counter, `some (.error ())` a failing
`CountToday`, `some (.ok c)` a successful count. -/
def PreTradeCheck (limits : Limits) (tradeUSDValue : ℚ)
    (counter : Option (Except Unit ℤ)) : Except RiskError Unit :=
  if limits.maxPositionSizeUSD > 0 ∧ tradeUSDValue > limits.maxPositionSizeUSD then
    .error .positionTooLarge
  else if limits.maxDailyTrades > 0 then
    match counter with
    | none => .ok ()
    | some (.error _) => .error .counterUnavailable
    | some (.ok count) =>
      if count ≥ limits.maxDailyTrades then .error .dailyLimitReached else .ok ()
  else .ok ()

/-- risk.Guardian.PortfolioCheck. -/
def PortfolioCheck (limits : Limits) (pnlPercent : ℚ) : Except RiskError Unit :=
  if limits.stopLossPercent > 0 ∧ pnlPercent ≤ -limits.stopLossPercent then
    .error .stopLoss
  else if limits.takeProfitPercent > 0 ∧ pnlPercent ≥ limits.takeProfitPercent then
    .error .takeProfit
  else .ok ()

/-- bot.BalSnap. -/
structure BalSnap where
  eth : ℚ
  usdc : ℚ
deriving DecidableEq, Repr

/-- bot.PaperTrade. The RFC3339 timestamp string is irrelevant to every
claim and elided. -/
structure PaperTrade where
  id : ℤ
  side : Side
  gridLevel : ℤ
  triggerPrice : ℚ
  executionPrice : ℚ
  ethAmount : ℚ
  usdcAmount : ℚ
  slippagePct : ℚ
  gasCost : ℚ
  balanceAfter : BalSnap
deriving DecidableEq, Repr

/-- bot.PaperWallet (the repository handle and start time carry no claim
content; balances, gas tally and the trade log are kept). -/
structure PaperWallet where
  ethBalance : ℚ
  usdcBalance : ℚ
  totalGas : ℚ
  trades : List PaperTrade
deriving DecidableEq, Repr

/-- bot.PaperWallet.ExecuteBuy. -/
def ExecuteBuy (pw : PaperWallet) (usdcAmount ethAmount : ℚ) : Except String PaperWallet :=
  if pw.usdcBalance < usdcAmount then .error "insufficient USDC"
  else .ok { pw with
    usdcBalance := pw.usdcBalance - usdcAmount
    ethBalance := pw.ethBalance + ethAmount }

/-- bot.PaperWallet.ExecuteSell. -/
def ExecuteSell (pw : PaperWallet) (ethAmount usdcAmount : ℚ) : Except String PaperWallet :=
  if pw.ethBalance < ethAmount then .error "insufficient ETH"
  else .ok { pw with
    ethBalance := pw.ethBalance - ethAmount
    usdcBalance := pw.usdcBalance + usdcAmount }

/-- bot.PaperWallet.DeductGas. -/
def DeductGas (pw : PaperWallet) (gasETH : ℚ) : PaperWallet :=
  { pw with ethBalance := pw.ethBalance - gasETH, totalGas := pw.totalGas + gasETH }

/-- bot.PaperWallet.RecordTrade: stamp the ID and post-trade balances and
append. -/
def RecordTrade (pw : PaperWallet) (t : PaperTrade) : PaperWallet :=
  let stamped := { t with
    id := (pw.trades.length : ℤ) + 1
    balanceAfter := { eth := pw.ethBalance, usdc := pw.usdcBalance } }
  { pw with trades := pw.trades ++ [stamped] }

/-- bot.defaultPaperGasCost = 0.005. -/
def defaultPaperGasCost : ℚ := 5 / 1000

/-- bot.randomSlippage: `rand.Float64() * maxPct / 100`. The random sample
`u ∈ [0,1)` is an explicit argument. -/
def randomSlippage (u maxPct : ℚ) : ℚ := u * maxPct / 100

/-- GridBot.executePaperSwap. The slippage sample `slip` (the value of
`randomSlippage(cfg.PaperSlippagePercent)`) is an explicit argument;
`ethAmount`/`usdcAmount` are the caller-computed `level.Quantity` and
`level.Quantity * currentPrice`. Returns the updated wallet. -/
def executePaperSwap (pw : PaperWallet) (level : GridLevel) (currentPrice : ℚ)
    (side : Side) (ethAmount usdcAmount slip : ℚ) : Except String PaperWallet :=
  let gas := defaultPaperGasCost
  match side with
  | Side.buy =>
    let actualETH := ethAmount * (1 - slip)
    match ExecuteBuy pw usdcAmount actualETH with
    | .error e => .error e
    | .ok pw1 =>
      let pw2 := DeductGas pw1 gas
      .ok (RecordTrade pw2
        { id := 0, side := side, gridLevel := level.index
          triggerPrice := level.price, executionPrice := currentPrice
          ethAmount := actualETH, usdcAmount := usdcAmount
          slippagePct := slip * 100, gasCost := gas
          balanceAfter := { eth := 0, usdc := 0 } })
  | Side.sell =>
    if pw.ethBalance < ethAmount + gas then .error "insufficient ETH"
    else
      let usdcAdj := usdcAmount * (1 - slip)
      match ExecuteSell pw ethAmount usdcAdj with
      | .error e => .error e
      | .ok pw1 =>
        let pw2 := DeductGas pw1 gas
        .ok (RecordTrade pw2
          { id := 0, side := side, gridLevel := level.index
            triggerPrice := level.price, executionPrice := currentPrice
            ethAmount := ethAmount, usdcAmount := usdcAdj
            slippagePct := slip * 100, gasCost := gas
            balanceAfter := { eth := 0, usdc := 0 } })

/-- Outcome of one HTTP attempt inside httputil.Do: a transport error from
`client.Do`, or a response with a status code. -/
inductive AttemptOutcome where
  | transportError
  | response (status : ℕ)
deriving DecidableEq, Repr

/-- An attempt makes Do retry iff it is a transport error or a status
`>= 500`. -/
def retriable : AttemptOutcome → Bool
  | .transportError => true
  | .response s => decide (500 ≤ s)

/-- Result of httputil.Do: the returned response (with the attempt number
that produced it), the final all-attempts-failed error carrying the last
cause and the attempt count, or the cancellation cause from the backoff
select. -/
inductive RetryResult where
  | success (status : ℕ) (attempts : ℕ)
  | failure (lastCause : AttemptOutcome) (attempts : ℕ)
  | cancelled (attempts : ℕ)
deriving DecidableEq, Repr

/-- httputil.RetryConfig. Delays are abstract ticks (`ℕ`). -/
structure RetryConfig where
  maxAttempts : ℤ
  baseDelay : ℕ
  maxDelay : ℕ
deriving DecidableEq, Repr

/-- The delay update at the bottom of the retry loop:
`delay *= 2; if delay > maxDelay { delay = maxDelay }`. -/
def nextDelay (delay maxDelay : ℕ) : ℕ := min (2 * delay) maxDelay

/-- The retry loop of httputil.Do. `attempt` is the 1-based attempt counter,
`remaining` the number of attempts still allowed after this one, `waits`
the backoff delays slept so far. `outcomes k` is the result of attempt `k`
and `cancel k` whether the context is done during the backoff that follows
attempt `k`. -/
def doAux (outcomes : ℕ → AttemptOutcome) (cancel : ℕ → Bool) (maxD : ℕ) :
    (remaining attempt delay : ℕ) → (waits : List ℕ) → RetryResult × List ℕ
  | 0, attempt, _, waits =>
    match outcomes attempt with
    | .response s =>
      if s < 500 then (.success s attempt, waits)
      else (.failure (.response s) attempt, waits)
    | .transportError => (.failure .transportError attempt, waits)
  | r + 1, attempt, delay, waits =>
    match outcomes attempt with
    | .response s =>
      if s < 500 then (.success s attempt, waits)
      else if cancel attempt then (.cancelled attempt, waits)
      else doAux outcomes cancel maxD r (attempt + 1) (nextDelay delay maxD)
        (waits ++ [delay])
    | .transportError =>
      if cancel attempt then (.cancelled attempt, waits)
      else doAux outcomes cancel maxD r (attempt + 1) (nextDelay delay maxD)
        (waits ++ [delay])

/-- httputil.Do. Non-positive `MaxAttempts` falls back to the default 3
(as in the source); the pair also returns the backoff delays slept. -/
def Do (cfg : RetryConfig) (outcomes : ℕ → AttemptOutcome) (cancel : ℕ → Bool) :
    RetryResult × List ℕ :=
  let maxA : ℕ := if cfg.maxAttempts ≤ 0 then 3 else cfg.maxAttempts.toNat
  doAux outcomes cancel cfg.maxDelay (maxA - 1) 1 cfg.baseDelay []

/-- The closed-form backoff delay before attempt `k+2` (the `k`-th sleep,
0-based), starting from `base`. -/
def delayAt (base maxD : ℕ) : ℕ → ℕ
  | 0 => base
  | k + 1 => nextDelay (delayAt base maxD k) maxD

/-- Go strings in the HTTP middleware are modelled as character lists. -/
abbrev GoString : Type := List Char

/-- Go strings.TrimPrefix: drop `pre` when it is a leading pattern of `s`,
otherwise return `s` unchanged. -/
def TrimPrefix (s pre : GoString) : GoString :=
  if pre.isPrefixOf s then s.drop pre.length else s

/-- The parts of an incoming request read by the two middlewares. The
`authorization` field is `Header.Get("Authorization")`, which yields the
empty string when the header is absent. -/
structure HttpRequest where
  method : GoString
  path : GoString
  authorization : GoString
deriving DecidableEq, Repr

/-- A produced response: status code and response headers. -/
structure HttpResponse where
  status : ℕ
  headers : List (GoString × GoString)
deriving DecidableEq, Repr

/-- api.writeError: a JSON error body with the given status (writeJSON sets
the Content-Type header before writing the status). -/
def writeError (status : ℕ) : HttpResponse :=
  { status := status
    headers := [("Content-Type".toList, "application/json".toList)] }

/-- api.Server.authMiddleware. -/
def authMiddleware (apiKey : GoString) (next : HttpRequest → HttpResponse)
    (r : HttpRequest) : HttpResponse :=
  if apiKey = [] ∨ r.path = "/health".toList then next r
  else if r.authorization = [] then writeError 401
  else
    let token := TrimPrefix r.authorization ("Bearer ".toList)
    if token = r.authorization ∨ token ≠ apiKey then writeError 401
    else next r

/-- The three headers set by api.corsMiddleware (empty `allowOrigin`
defaults to `*`). -/
def corsHeaders (allowOrigin : GoString) : List (GoString × GoString) :=
  let ao := if allowOrigin = [] then "*".toList else allowOrigin
  [("Access-Control-Allow-Origin".toList, ao),
   ("Access-Control-Allow-Methods".toList, "GET, OPTIONS".toList),
   ("Access-Control-Allow-Headers".toList, "Content-Type, Authorization".toList)]

/-- api.corsMiddleware: set the CORS headers; answer preflight OPTIONS with
200 without calling the inner handler; otherwise delegate. -/
def corsMiddleware (next : HttpRequest → HttpResponse) (allowOrigin : GoString)
    (r : HttpRequest) : HttpResponse :=
  if r.method = "OPTIONS".toList then
    { status := 200, headers := corsHeaders allowOrigin }
  else
    let resp := next r
    { resp with headers := corsHeaders allowOrigin ++ resp.headers }

/-- The full middleware chain built in api.NewServer:
`authMiddleware(corsMiddleware(mux))`. -/
def serveRequest (apiKey corsOrigin : GoString) (mux : HttpRequest → HttpResponse)
    (r : HttpRequest) : HttpResponse :=
  authMiddleware apiKey (corsMiddleware mux corsOrigin) r

/-- external.SRResult (fetch timestamps are abstract ticks). `avgPrice`
stays optional because the Dune validation never checks it for NaN. -/
structure SRResult where
  support : ℚ
  resistance : ℚ
  midpoint : ℚ
  avgPrice : Option ℚ
  fetchedAt : ℕ
deriving DecidableEq, Repr

/-- One row of a Dune query result after `jsonFloat` extraction: `none`
models NaN (missing key or non-numeric value). -/
structure RawSRRow where
  support : Option ℚ
  resistance : Option ℚ
  midpoint : Option ℚ
  avgPrice : Option ℚ
deriving DecidableEq, Repr

/-- The mutable cache fields of external.DuneClient. -/
structure DuneCache where
  cachedResult : Option SRResult
  lastFetch : ℕ
deriving DecidableEq, Repr

/-- The error returns of DuneClient.FetchSupportResistance. -/
inductive FetchError where
  | queryFailed
  | noData
  | invalidData
  | invalidRange
deriving DecidableEq, Repr

/-- The fetch-and-validate path of DuneClient.FetchSupportResistance (the
part after the cache check). `queryOutcome` is the result of
`executeQuery`; only validated results are written back to the cache. -/
def fetchFresh (st : DuneCache) (now : ℕ)
    (queryOutcome : Except Unit (List RawSRRow)) :
    Except FetchError SRResult × DuneCache :=
  match queryOutcome with
  | .error _ => (.error .queryFailed, st)
  | .ok [] => (.error .noData, st)
  | .ok (row :: _) =>
    match row.support, row.resistance, row.midpoint with
    | some s, some r, some m =>
      if s ≥ r then (.error .invalidRange, st)
      else
        let result : SRResult :=
          { support := s, resistance := r, midpoint := m
            avgPrice := row.avgPrice, fetchedAt := now }
        (.ok result, { cachedResult := some result, lastFetch := now })
    | _, _, _ => (.error .invalidData, st)

/-- DuneClient.FetchSupportResistance: serve from the cache when it is
fresh and no refresh is forced, otherwise fetch, validate, and update the
cache only on success. -/
def FetchSupportResistance (cacheTTL : ℕ) (st : DuneCache) (forceRefresh : Bool)
    (now : ℕ) (queryOutcome : Except Unit (List RawSRRow)) :
    Except FetchError SRResult × DuneCache :=
  match st.cachedResult with
  | some cached =>
    if forceRefresh = false ∧ now - st.lastFetch < cacheTTL then (.ok cached, st)
    else fetchFresh st now queryOutcome
  | none => fetchFresh st now queryOutcome

/-- A paper wallet holding no ETH at all (concrete test input). -/
def zeroEthWallet : PaperWallet :=
  { ethBalance := 0, usdcBalance := 1000, totalGas := 0, trades := [] }

/-- The spec scenario start state: 1.0 ETH and 1000 USDC. -/
def startWallet : PaperWallet :=
  { ethBalance := 1, usdcBalance := 1000, totalGas := 0, trades := [] }

/-- Grid level 0 of the spec scenario: a buy at price 2000 for 0.05 ETH. -/
def buyLevelAt2000 : GridLevel :=
  { index := 0, price := 2000, side := Side.buy, quantity := 1/20,
    filled := false, filledAt := none, txHash := none }

/-- A tiny buy level (quantity 0.001 ETH) used to exercise the gas charge. -/
def tinyBuyLevel : GridLevel :=
  { index := 0, price := 2000, side := Side.buy, quantity := 1/1000,
    filled := false, filledAt := none, txHash := none }

/-- A grid whose slice order disagrees with its index order (concrete test
input): index 5 sits before index 0. -/
def outOfOrderGrid : List GridLevel :=
  [{ index := 5, price := 10, side := Side.buy, quantity := 1,
     filled := false, filledAt := none, txHash := none },
   { index := 0, price := 10, side := Side.buy, quantity := 1,
     filled := false, filledAt := none, txHash := none }]

/-- The four-level sample grid of the spec scenarios (sell at index 2 is
filled). -/
def sampleGrid : List GridLevel :=
  [{ index := 0, price := 2550, side := Side.buy, quantity := 1,
     filled := false, filledAt := none, txHash := none },
   { index := 1, price := 2600, side := Side.buy, quantity := 1,
     filled := false, filledAt := none, txHash := none },
   { index := 2, price := 2700, side := Side.sell, quantity := 1,
     filled := true, filledAt := some 7, txHash := some "0xabc" },
   { index := 3, price := 2750, side := Side.sell, quantity := 1,
     filled := false, filledAt := none, txHash := none }]

/-- A stub inner handler for the middleware tests. -/
def muxStub : HttpRequest → HttpResponse := fun _ => { status := 200, headers := [] }

/-- Odd level count: center 100, 3 levels, 10% spacing, 10 per grid. -/
def oddGridParams : GridParams :=
  { centerPrice := 100, levelCount := 3, spacingPercent := 10, amountPerGrid := 10 }

/-- The grid CalculateGridLevels produces for `oddGridParams`. -/
def oddGridLevels : List GridLevel :=
  [{ index := 0, price := 1000/11, side := Side.buy, quantity := 11/100,
     filled := false, filledAt := none, txHash := none },
   { index := 1, price := 100, side := Side.sell, quantity := 1/10,
     filled := false, filledAt := none, txHash := none },
   { index := 2, price := 110, side := Side.sell, quantity := 1/11,
     filled := false, filledAt := none, txHash := none }]

/-- The wallet produced by the spec scenario buy (1.0 ETH / 1000 USDC,
buy 0.05 ETH at 2000 with slippage 0.004 and the 0.005 gas charge). -/
def resultWallet : PaperWallet :=
  { ethBalance := 653/625, usdcBalance := 900, totalGas := 1/200,
    trades := [{ id := 1, side := Side.buy, gridLevel := 0,
                 triggerPrice := 2000, executionPrice := 2000,
                 ethAmount := 249/5000, usdcAmount := 100,
                 slippagePct := 2/5, gasCost := 1/200,
                 balanceAfter := { eth := 653/625, usdc := 900 } }] }

/-- For positive `prev`, the absolute value in the Go change computation can
be pushed to the numerator. -/
theorem abs_change_eq (a b : ℚ) (hb : 0 < b) :
    |(a - b) / b * 100| = |a - b| / b * 100 := by
  rw [abs_mul, abs_div, abs_of_pos hb]
  norm_num

/-- C8: Guardian.PreTradeCheck blocks exactly when the position limit is
enabled and exceeded, or the daily-trade limit is enabled and the counter
fails or reports a count at or above the limit; Guardian.PortfolioCheck
trips exactly when the stop-loss is enabled and `pnl ≤ -stopLossPct`, or
the take-profit is enabled and `pnl ≥ takeProfitPct`; zero thresholds
disable the checks and the boundary comparisons are inclusive. -/
theorem C8_guardian_checks (limits : Limits) (tradeUSDValue pnl : ℚ)
    (counter : Option (Except Unit ℤ)) :
    ((∃ e, PreTradeCheck limits tradeUSDValue counter = .error e) ↔
      ((0 < limits.maxPositionSizeUSD ∧ limits.maxPositionSizeUSD < tradeUSDValue) ∨
       (0 < limits.maxDailyTrades ∧
         ((∃ u, counter = some (.error u)) ∨
          (∃ c, counter = some (.ok c) ∧ limits.maxDailyTrades ≤ c))))) ∧
    ((∃ e, PortfolioCheck limits pnl = .error e) ↔
      ((0 < limits.stopLossPercent ∧ pnl ≤ -limits.stopLossPercent) ∨
       (0 < limits.takeProfitPercent ∧ limits.takeProfitPercent ≤ pnl))) := by
  constructor
  · unfold PreTradeCheck
    rcases counter with _ | r
    · split_ifs <;> simp_all
    · rcases r with u | c
      · split_ifs <;> simp_all
      · by_cases h1 : 0 < limits.maxPositionSizeUSD ∧ limits.maxPositionSizeUSD < tradeUSDValue
        · simp [h1]
        · by_cases h2 : 0 < limits.maxDailyTrades
          · by_cases h3 : limits.maxDailyTrades ≤ c
            · simp [h1, h2, h3]
            · simp [h1, h2, h3]
          · simp [h1, h2]
  · unfold PortfolioCheck
    split_ifs <;> simp_all

/-- C6 (amended): with a positive previous midpoint, all three detectors
report change exactly when `|Δ|/prev × 100 ≥ threshold`; with no previous
sample, CheckSignificantChange and HasChangedSignificantly always report
change, while the encoding `oldMidpoint = 0` makes CalculateSRChange return
the constant 100, which reports change only for thresholds ≤ 100. -/
theorem C6_amended_change_detectors (prev srNew : SupportResistance) (t : ℚ) :
    (0 < prev.midpoint →
      (((CheckSignificantChange (some prev) srNew t).hasChanged = true ↔
          t ≤ |srNew.midpoint - prev.midpoint| / prev.midpoint * 100) ∧
       (HasChangedSignificantly srNew (some prev) t = true ↔
          t ≤ |srNew.midpoint - prev.midpoint| / prev.midpoint * 100) ∧
       (t ≤ CalculateSRChange srNew.midpoint prev.midpoint ↔
          t ≤ |srNew.midpoint - prev.midpoint| / prev.midpoint * 100))) ∧
    (CheckSignificantChange none srNew t).hasChanged = true ∧
    HasChangedSignificantly srNew none t = true ∧
    CalculateSRChange srNew.midpoint 0 = 100 ∧
    (t ≤ 100 → t ≤ CalculateSRChange srNew.midpoint 0) := by
  refine ⟨fun hm => ?_, rfl, rfl, by norm_num [CalculateSRChange],
    fun ht => by norm_num [CalculateSRChange, ht]⟩
  have habs := abs_change_eq srNew.midpoint prev.midpoint hm
  refine ⟨?_, ?_, ?_⟩
  · simp [CheckSignificantChange, habs, ge_iff_le]
  · simp [HasChangedSignificantly, hm.ne.symm, habs, ge_iff_le]
  · rw [CalculateSRChange, if_neg hm.ne.symm, habs]

/-- C6 counterexample: encoding an absent previous sample as
`oldMidpoint = 0` does not always report change — CalculateSRChange
returns 100, which is below a threshold of 150. -/
theorem C6_counterexample :
    CalculateSRChange 2700 0 = 100 ∧ ¬((150 : ℚ) ≤ CalculateSRChange 2700 0) := by
  norm_num [CalculateSRChange]

/-- C10: FetchSupportResistance never touches the cache on any error path
(fetch failure, empty result, NaN field, support ≥ resistance), and
whenever the cache does change, the call returned a validated result
(`support < resistance`) and the cache now holds exactly that result with
the fetch timestamp. -/
theorem C10_cache_update_only_on_valid (ttl : ℕ) (st : DuneCache) (force : Bool)
    (now : ℕ) (q : Except Unit (List RawSRRow)) :
    (∀ e, (FetchSupportResistance ttl st force now q).1 = .error e →
      (FetchSupportResistance ttl st force now q).2 = st) ∧
    ((FetchSupportResistance ttl st force now q).2 ≠ st →
      ∃ r, (FetchSupportResistance ttl st force now q).1 = .ok r ∧
        r.support < r.resistance ∧
        (FetchSupportResistance ttl st force now q).2 =
          { cachedResult := some r, lastFetch := now }) := by
  have hfresh : ∀ e, (fetchFresh st now q).1 = .error e → (fetchFresh st now q).2 = st := by
    intro e
    unfold fetchFresh
    rcases q with _ | (_ | ⟨row, rest⟩)
    · simp
    · simp
    · rcases hs : row.support with _ | s <;> rcases hr : row.resistance with _ | r <;>
        rcases hm : row.midpoint with _ | m <;> simp [hs, hr, hm] <;> split_ifs <;> simp
  have hfresh2 : (fetchFresh st now q).2 ≠ st →
      ∃ r, (fetchFresh st now q).1 = .ok r ∧ r.support < r.resistance ∧
        (fetchFresh st now q).2 = { cachedResult := some r, lastFetch := now } := by
    intro hne
    unfold fetchFresh at hne ⊢
    rcases q with _ | (_ | ⟨row, rest⟩)
    · simp at hne
    · simp at hne
    · rcases hs : row.support with _ | s
      · simp [hs] at hne
      · rcases hr : row.resistance with _ | r
        · simp [hs, hr] at hne
        · rcases hm : row.midpoint with _ | m
          · simp [hs, hr, hm] at hne
          · by_cases hsr : s ≥ r
            · simp [hs, hr, hm, hsr] at hne
            · refine ⟨⟨s, r, m, row.avgPrice, now⟩, ?_, not_le.mp hsr, ?_⟩
              · simp [hs, hr, hm, hsr]
              · simp [hs, hr, hm, hsr]
  constructor
  · intro e he
    unfold FetchSupportResistance at he ⊢
    rcases hc : st.cachedResult with _ | cached
    · exact hfresh e (by simpa [hc] using he)
    · by_cases hif : force = false ∧ now - st.lastFetch < ttl
      · simp [hc, hif] at he
      · simp only [hc, if_neg hif] at he ⊢
        exact hfresh e he
  · intro hne
    unfold FetchSupportResistance at hne ⊢
    rcases hc : st.cachedResult with _ | cached
    · exact hfresh2 (by simpa [hc] using hne)
    · by_cases hif : force = false ∧ now - st.lastFetch < ttl
      · simp [hc, hif] at hne
      · simp only [hc, if_neg hif] at hne ⊢
        exact hfresh2 hne

/-- Witness for C6 at a concrete drift above threshold: previous midpoint
2700, new 2900, threshold 5 → change is reported. -/
theorem C6_amended_witness :
    (CheckSignificantChange
      (some { support := 2400, resistance := 3000, midpoint := 2700 })
      { support := 2500, resistance := 3300, midpoint := 2900 } 5).hasChanged = true := by
  have h := ((C6_amended_change_detectors
    { support := 2400, resistance := 3000, midpoint := 2700 }
    { support := 2500, resistance := 3300, midpoint := 2900 } 5).1 (by norm_num)).1
  rw [h]
  norm_num

/-- Witness for C10: a failed forced refresh leaves a populated cache
untouched. -/
theorem C10_witness :
    (FetchSupportResistance 10
      { cachedResult := some { support := 2400, resistance := 3000, midpoint := 2700,
                               avgPrice := none, fetchedAt := 0 }, lastFetch := 0 }
      true 5 (.error ())).2 =
    { cachedResult := some { support := 2400, resistance := 3000, midpoint := 2700,
                             avgPrice := none, fetchedAt := 0 }, lastFetch := 0 } :=
  (C10_cache_update_only_on_valid 10 _ true 5 (.error ())).1 FetchError.queryFailed rfl

/-- C3: GetOppositeLevelIndex returns `k+1` for a filled buy at `k` and
`k-1` for a filled sell, exactly when that index is inside `[0, L)`, and
`none` otherwise; resetOppositeLevel clears the fill state of the opposite
level only when it is currently filled and leaves every other level (and
the grid, when the opposite index is out of range or unfilled) unchanged. -/
theorem C3_opposite_reset (lv : GridLevel) (L : ℕ) (grid : List GridLevel) (j : ℤ) :
    (GetOppositeLevelIndex lv L = some j ↔
      (j = oppIdx lv ∧ 0 ≤ j ∧ j < (L : ℤ))) ∧
    (oppIdx lv = (if lv.side = Side.buy then lv.index + 1 else lv.index - 1)) ∧
    (GetOppositeLevelIndex lv grid.length = none → resetOppositeLevel grid lv = grid) ∧
    (GetOppositeLevelIndex lv grid.length = some j →
      (∀ m : ℕ, (m : ℤ) ≠ j → (resetOppositeLevel grid lv)[m]? = grid[m]?) ∧
      (resetOppositeLevel grid lv)[j.toNat]? =
        (grid[j.toNat]?).map (fun adj => if adj.filled then clearFill adj else adj)) := by
  refine ⟨?_, rfl, ?_, ?_⟩
  · unfold GetOppositeLevelIndex
    split_ifs with hin
    · constructor
      · intro h
        obtain rfl : oppIdx lv = j := by simpa using h
        exact ⟨rfl, hin.1, hin.2⟩
      · rintro ⟨rfl, -⟩
        rfl
    · constructor
      · intro h
        simp at h
      · rintro ⟨rfl, h0, hL⟩
        exact absurd ⟨h0, hL⟩ hin
  · intro h
    simp only [resetOppositeLevel, h]
  · intro h
    have hj : j = oppIdx lv ∧ 0 ≤ j ∧ j < (grid.length : ℤ) := by
      unfold GetOppositeLevelIndex at h
      by_cases hin : 0 ≤ oppIdx lv ∧ oppIdx lv < (grid.length : ℤ)
      · rw [if_pos hin] at h
        obtain rfl : oppIdx lv = j := by simpa using h
        exact ⟨rfl, hin.1, hin.2⟩
      · rw [if_neg hin] at h
        simp at h
    have hjN : j.toNat < grid.length := by omega
    have hget : grid.get? j.toNat = some (grid[j.toNat]) := by
      rw [List.get?_eq_getElem?, List.getElem?_eq_getElem hjN]
    have hred : resetOppositeLevel grid lv =
        if (grid[j.toNat]).filled then grid.set j.toNat (clearFill (grid[j.toNat]))
        else grid := by
      simp only [resetOppositeLevel, h, hget]
    rw [hred]
    by_cases hf : (grid[j.toNat]).filled
    · rw [if_pos hf]
      constructor
      · intro m hm
        have : j.toNat ≠ m := by omega
        exact List.getElem?_set_ne this
      · rw [List.getElem?_set_self hjN, List.getElem?_eq_getElem hjN]
        simp [hf]
    · rw [if_neg hf]
      refine ⟨fun m _ => rfl, ?_⟩
      rw [List.getElem?_eq_getElem hjN]
      simp [hf]

/-- Witness for C3: filling the buy at index 1 of the sample grid resets
the previously-filled sell at index 2, clearing its fill metadata. -/
theorem C3_witness :
    (resetOppositeLevel sampleGrid
      { index := 1, price := 2600, side := Side.buy, quantity := 1,
        filled := false, filledAt := none, txHash := none })[2]? =
    some { index := 2, price := 2700, side := Side.sell, quantity := 1,
           filled := false, filledAt := none, txHash := none } := by
  have h := ((C3_opposite_reset
    { index := 1, price := 2600, side := Side.buy, quantity := 1,
      filled := false, filledAt := none, txHash := none }
    4 sampleGrid 2).2.2.2 (by decide)).2
  rw [show ((2:ℤ).toNat) = 2 from rfl] at h
  rw [h]
  simp [sampleGrid, clearFill]

/-- C4 counterexample: a wallet with non-negative balances (0 ETH,
1000 USDC) completes a paper buy of 0.001 ETH at price 2000 with zero
slippage, yet ends with a negative ETH balance, because the buy path never
checks that the credited ETH covers the constant 0.005 gas charge. -/
theorem C4_counterexample :
    0 ≤ zeroEthWallet.ethBalance ∧ 0 ≤ zeroEthWallet.usdcBalance ∧
    (executePaperSwap zeroEthWallet tinyBuyLevel 2000 Side.buy (1/1000) 2 0).map
      PaperWallet.ethBalance = .ok (-(1/250)) ∧
    ¬(0 ≤ (-(1/250) : ℚ)) := by
  refine ⟨by norm_num [zeroEthWallet], by norm_num [zeroEthWallet], ?_, by norm_num⟩
  norm_num [executePaperSwap, ExecuteBuy, DeductGas, RecordTrade,
    defaultPaperGasCost, zeroEthWallet, tinyBuyLevel, Except.map]

/-- C4 (amended): a completed paper trade from a wallet with non-negative
balances leaves both balances non-negative — unconditionally for sells
(whose path checks ETH sufficiency including the gas reserve), and for buys
under the additional condition (not checked by the code) that the ETH
balance plus the credited ETH covers the constant gas charge — and the
trade list grows by exactly one appended record. -/
theorem C4_amended_paper_invariants (pw : PaperWallet) (lvl : GridLevel) (price : ℚ)
    (side : Side) (ethAmount usdcAmount slip : ℚ) (pw2 : PaperWallet)
    (heth : 0 ≤ pw.ethBalance) (husdc : 0 ≤ pw.usdcBalance)
    (hslip : slip ≤ 1) (husdcAmt : 0 ≤ usdcAmount)
    (hgas : side = Side.buy →
      defaultPaperGasCost ≤ pw.ethBalance + ethAmount * (1 - slip))
    (hok : executePaperSwap pw lvl price side ethAmount usdcAmount slip = .ok pw2) :
    0 ≤ pw2.ethBalance ∧ 0 ≤ pw2.usdcBalance ∧
    ∃ t, pw2.trades = pw.trades ++ [t] := by
  cases side with
  | buy =>
    have hg := hgas rfl
    by_cases hins : pw.usdcBalance < usdcAmount
    · simp [executePaperSwap, ExecuteBuy, hins] at hok
    · simp only [executePaperSwap, ExecuteBuy, if_neg hins, Except.ok.injEq] at hok
      subst hok
      push_neg at hins
      refine ⟨?_, ?_, ⟨_, rfl⟩⟩
      · simp only [RecordTrade, DeductGas]
        simp only [defaultPaperGasCost] at hg ⊢
        linarith
      · simp only [RecordTrade, DeductGas]
        linarith
  | sell =>
    by_cases hins1 : pw.ethBalance < ethAmount + defaultPaperGasCost
    · simp [executePaperSwap, hins1] at hok
    · have hgasnn : (0:ℚ) ≤ defaultPaperGasCost := by norm_num [defaultPaperGasCost]
      have hins2 : ¬ pw.ethBalance < ethAmount := by
        push_neg at hins1 ⊢
        linarith
      simp only [executePaperSwap, ExecuteSell, if_neg hins1, if_neg hins2,
        Except.ok.injEq] at hok
      subst hok
      push_neg at hins1 hins2
      have hcred : 0 ≤ usdcAmount * (1 - slip) :=
        mul_nonneg husdcAmt (by linarith)
      refine ⟨?_, ?_, ⟨_, rfl⟩⟩
      · simp only [RecordTrade, DeductGas]
        linarith
      · simp only [RecordTrade, DeductGas]
        linarith

/-- Witness for C4 at the spec scenario buy: 1.0 ETH / 1000 USDC, buy
0.05 ETH at 2000 with slippage 0.004 — both post-trade balances are
non-negative and the trade log grew by one entry. -/
theorem C4_amended_witness :
    0 ≤ resultWallet.ethBalance ∧ 0 ≤ resultWallet.usdcBalance ∧
    ∃ t, resultWallet.trades = startWallet.trades ++ [t] := by
  refine C4_amended_paper_invariants startWallet buyLevelAt2000 2000 Side.buy
    (1/20) 100 (1/250) resultWallet
    (by norm_num [startWallet]) (by norm_num [startWallet]) (by norm_num)
    (by norm_num)
    (fun _ => by norm_num [startWallet, defaultPaperGasCost]) ?_
  norm_num [executePaperSwap, ExecuteBuy, DeductGas, RecordTrade,
    defaultPaperGasCost, startWallet, buyLevelAt2000, resultWallet]

/-- C5: the spec scenario paper buy — wallet 1.0 ETH / 1000 USDC, buy at
grid level 0, execution price 2000, quantity 0.05, slippage sample 0.004 —
debits exactly 100 USDC and credits 0.0498 ETH, then deducts the constant
0.005 ETH gas charge, leaving 1.0448 ETH and 900 USDC; in general the
slippage sample `rand * pct / 100` lies in `[0, pct/100]` for
`rand ∈ [0,1)`, and every completed buy debits `quantity * price` USDC and
credits `quantity * (1 - slip)` ETH before the gas charge. -/
theorem C5_paper_buy_execution :
    (∃ pw2, executePaperSwap startWallet buyLevelAt2000 2000 Side.buy
        (1/20) 100 (1/250) = .ok pw2 ∧
      pw2.ethBalance = 653/625 ∧ pw2.usdcBalance = 900) ∧
    (∀ u maxPct : ℚ, 0 ≤ u → u < 1 → 0 ≤ maxPct →
      0 ≤ randomSlippage u maxPct ∧ randomSlippage u maxPct ≤ maxPct / 100) ∧
    (∀ (pw : PaperWallet) (lvl : GridLevel) (price q slip : ℚ) (pw2 : PaperWallet),
      executePaperSwap pw lvl price Side.buy q (q * price) slip = .ok pw2 →
      pw2.usdcBalance = pw.usdcBalance - q * price ∧
      pw2.ethBalance = pw.ethBalance + q * (1 - slip) - defaultPaperGasCost) := by
  refine ⟨?_, ?_, ?_⟩
  · norm_num [executePaperSwap, ExecuteBuy, DeductGas, RecordTrade,
      defaultPaperGasCost, startWallet, buyLevelAt2000]
  · intro u maxPct hu0 hu1 hmp
    unfold randomSlippage
    constructor
    · positivity
    · rw [div_le_div_iff (by norm_num) (by norm_num)]
      nlinarith [mul_nonneg (sub_nonneg.mpr hu1.le) hmp]
  · intro pw lvl price q slip pw2 hok
    by_cases hins : pw.usdcBalance < q * price
    · simp [executePaperSwap, ExecuteBuy, hins] at hok
    · simp only [executePaperSwap, ExecuteBuy, if_neg hins, Except.ok.injEq] at hok
      subst hok
      constructor
      · simp [RecordTrade, DeductGas]
      · simp only [RecordTrade, DeductGas]
        try ring

/-- Witness for C5's general slippage bound at `rand = 1/2`,
`pct = 0.5`. -/
theorem C5_witness :
    0 ≤ randomSlippage (1/2) (1/2) ∧ randomSlippage (1/2) (1/2) ≤ (1/2) / 100 :=
  C5_paper_buy_execution.2.1 (1/2) (1/2) (by norm_num) (by norm_num) (by norm_num)

/-- FindTriggeredLevel coincides with the first-match search over the
slice. -/
theorem findTriggeredLevel_eq_find (currentPrice : ℚ) (grid : List GridLevel) :
    FindTriggeredLevel currentPrice grid =
      grid.find? (fun l => decide (triggers currentPrice l)) := by
  induction grid with
  | nil => rfl
  | cons l rest ih =>
    unfold FindTriggeredLevel
    rw [List.find?_cons]
    by_cases hf : l.filled
    · have : decide (triggers currentPrice l) = false := by
        simp [triggers, hf]
      rw [if_pos hf, this, ih]
    · rw [if_neg hf]
      by_cases hb : l.side = Side.buy ∧ currentPrice ≤ l.price
      · have : decide (triggers currentPrice l) = true := by
          simp [triggers, hf, hb]
        rw [if_pos hb, this]
      · by_cases hs : l.side = Side.sell ∧ l.price ≤ currentPrice
        · have : decide (triggers currentPrice l) = true := by
            simp [triggers, hf, hs]
          rw [if_neg hb, if_pos hs, this]
        · have : decide (triggers currentPrice l) = false := by
            simp only [triggers, decide_eq_false_iff_not]
            rintro ⟨-, h | h⟩
            · exact hb h
            · exact hs h
          rw [if_neg hb, if_neg hs, this, ih]

/-- C2 (amended): FindTriggeredLevel is a pure function of the price and
the slice (hence deterministic) returning at most one level: the first
level in slice-traversal order that is unfilled and satisfies the side
threshold, and none exactly when no level does. When the grid's indices are
strictly increasing along the slice — as they are for every grid produced
by CalculateGridLevels — the returned level is also the triggering level of
least index. -/
theorem C2_amended_find_triggered (currentPrice : ℚ) (grid : List GridLevel) :
    (FindTriggeredLevel currentPrice grid =
      grid.find? (fun l => decide (triggers currentPrice l))) ∧
    (∀ l, FindTriggeredLevel currentPrice grid = some l →
      triggers currentPrice l ∧ l ∈ grid) ∧
    (FindTriggeredLevel currentPrice grid = none ↔
      ∀ l ∈ grid, ¬ triggers currentPrice l) ∧
    (grid.Pairwise (fun a b => a.index < b.index) →
      ∀ l, FindTriggeredLevel currentPrice grid = some l →
        ∀ l2 ∈ grid, triggers currentPrice l2 → l.index ≤ l2.index) := by
  refine ⟨findTriggeredLevel_eq_find currentPrice grid, ?_, ?_, ?_⟩
  · intro l h
    rw [findTriggeredLevel_eq_find] at h
    exact ⟨by simpa using List.find?_some h, List.mem_of_find?_eq_some h⟩
  · rw [findTriggeredLevel_eq_find]
    rw [List.find?_eq_none]
    simp
  · intro hpw l hl l2 hl2 ht2
    rw [findTriggeredLevel_eq_find] at hl
    induction grid with
    | nil => simp at hl
    | cons a rest ih =>
      by_cases ha : decide (triggers currentPrice a) = true
      · have hfind : List.find? (fun x => decide (triggers currentPrice x)) (a :: rest) =
            some a := List.find?_cons_of_pos rest ha
        rw [hfind] at hl
        obtain rfl : a = l := by simpa using hl
        rcases List.mem_cons.mp hl2 with rfl | hmem
        · exact le_refl _
        · exact ((List.pairwise_cons.mp hpw).1 l2 hmem).le
      · have hfind : List.find? (fun x => decide (triggers currentPrice x)) (a :: rest) =
            List.find? (fun x => decide (triggers currentPrice x)) rest :=
          List.find?_cons_of_neg rest (by simpa using ha)
        rw [hfind] at hl
        rcases List.mem_cons.mp hl2 with rfl | hmem
        · exact absurd (by simpa using ht2) (by simpa using ha)
        · exact ih (List.pairwise_cons.mp hpw).2 hl hmem

/-- C2 counterexample: FindTriggeredLevel scans the slice in storage order,
not in ascending-index order — on a grid whose slice order disagrees with
its indices it returns the level with index 5 although an unfilled
triggering level with index 0 is also in the grid. -/
theorem C2_counterexample :
    (FindTriggeredLevel 5 outOfOrderGrid).map GridLevel.index = some 5 ∧
    (∃ l ∈ outOfOrderGrid, triggers 5 l ∧ l.index = 0) := by
  constructor
  · norm_num [FindTriggeredLevel, outOfOrderGrid]
  · have hmem : (GridLevel.mk 0 10 Side.buy 1 false none none) ∈ outOfOrderGrid := by
      simp [outOfOrderGrid]
    exact ⟨GridLevel.mk 0 10 Side.buy 1 false none none, hmem,
      ⟨rfl, Or.inl ⟨rfl, by norm_num⟩⟩, rfl⟩

/-- Witness for C2 at the spec scenario: price 2650 sits between the buy
and sell bands of the sample grid, so no level triggers. -/
theorem C2_witness : FindTriggeredLevel 2650 sampleGrid = none := by
  refine (C2_amended_find_triggered 2650 sampleGrid).2.2.1.mpr ?_
  intro l hl
  simp only [sampleGrid, List.mem_cons, List.not_mem_nil, or_false] at hl
  rcases hl with rfl | rfl | rfl | rfl <;> simp [triggers] <;> norm_num

/-- Shifting the starting delay through one doubling step. -/
theorem delayAt_shift (d maxD : ℕ) :
    ∀ j, delayAt d maxD (j + 1) = delayAt (nextDelay d maxD) maxD j := by
  intro j
  induction j with
  | zero => rfl
  | succ j ih =>
    show nextDelay (delayAt d maxD (j + 1)) maxD =
      nextDelay (delayAt (nextDelay d maxD) maxD j) maxD
    rw [ih]

/-- Unfolding one step of the closed-form backoff sequence. -/
theorem range_map_delayAt (d maxD r : ℕ) :
    (List.range (r + 1)).map (delayAt d maxD) =
      d :: (List.range r).map (delayAt (nextDelay d maxD) maxD) := by
  rw [List.range_succ_eq_map, List.map_cons, List.map_map]
  refine congrArg (List.cons (delayAt d maxD 0)) ?_
  exact List.map_congr_left fun a _ => by
    simp only [Function.comp_apply]
    exact delayAt_shift d maxD a

/-- When every attempt from `a` through `a + r` is retriable and no backoff
is cancelled, the retry loop performs all of them, failing with the outcome
of the last one and sleeping the doubled-and-capped delay sequence. -/
theorem doAux_all_fail (outcomes : ℕ → AttemptOutcome) (cancel : ℕ → Bool) (maxD : ℕ) :
    ∀ (r a d : ℕ) (waits : List ℕ),
      (∀ k, a ≤ k → k ≤ a + r → retriable (outcomes k) = true) →
      (∀ k, a ≤ k → k < a + r → cancel k = false) →
      doAux outcomes cancel maxD r a d waits =
        (.failure (outcomes (a + r)) (a + r),
         waits ++ (List.range r).map (delayAt d maxD)) := by
  intro r
  induction r with
  | zero =>
    intro a d waits hr hc
    have ha := hr a (le_refl a) (by omega)
    cases ho : outcomes a with
    | transportError => simp [doAux, ho]
    | response s =>
      rw [ho] at ha
      have hns : ¬ s < 500 := by simpa [retriable] using ha
      simp [doAux, ho, hns]
  | succ r ih =>
    intro a d waits hr hc
    have ha := hr a (le_refl a) (by omega)
    have hca := hc a (le_refl a) (by omega)
    have hstep : doAux outcomes cancel maxD (r + 1) a d waits =
        doAux outcomes cancel maxD r (a + 1) (nextDelay d maxD) (waits ++ [d]) := by
      cases ho : outcomes a with
      | transportError => simp [doAux, ho, hca]
      | response s =>
        rw [ho] at ha
        have hns : ¬ s < 500 := by simpa [retriable] using ha
        simp [doAux, ho, hns, hca]
    rw [hstep, ih (a + 1) (nextDelay d maxD) (waits ++ [d])
      (fun k h1 h2 => hr k (by omega) (by omega))
      (fun k h1 h2 => hc k (by omega) (by omega))]
    have harith : a + 1 + r = a + (r + 1) := by omega
    rw [harith, range_map_delayAt, List.append_assoc]
    rfl

/-- The first attempt with a sub-500 status, reached through retriable
uncancelled attempts, is returned as the success with its attempt count. -/
theorem doAux_success (outcomes : ℕ → AttemptOutcome) (cancel : ℕ → Bool) (maxD : ℕ) :
    ∀ (r a d : ℕ) (waits : List ℕ) (k s : ℕ),
      a ≤ k → k ≤ a + r →
      outcomes k = .response s → s < 500 →
      (∀ j, a ≤ j → j < k → retriable (outcomes j) = true) →
      (∀ j, a ≤ j → j < k → cancel j = false) →
      (doAux outcomes cancel maxD r a d waits).1 = .success s k := by
  intro r
  induction r with
  | zero =>
    intro a d waits k s hak hka ho hs hr hc
    obtain rfl : k = a := by omega
    simp [doAux, ho, hs]
  | succ r ih =>
    intro a d waits k s hak hka ho hs hr hc
    by_cases hk : k = a
    · subst hk
      simp [doAux, ho, hs]
    · have hlt : a < k := by omega
      have hra := hr a (le_refl a) hlt
      have hca := hc a (le_refl a) hlt
      have hstep : doAux outcomes cancel maxD (r + 1) a d waits =
          doAux outcomes cancel maxD r (a + 1) (nextDelay d maxD) (waits ++ [d]) := by
        cases hoa : outcomes a with
        | transportError => simp [doAux, hoa, hca]
        | response s2 =>
          rw [hoa] at hra
          have hns : ¬ s2 < 500 := by simpa [retriable] using hra
          simp [doAux, hoa, hns, hca]
      rw [hstep]
      exact ih (a + 1) _ _ k s (by omega) (by omega) ho hs
        (fun j h1 h2 => hr j (by omega) h2) (fun j h1 h2 => hc j (by omega) h2)

/-- A cancellation during the backoff after a retriable attempt `k`
(reached without earlier cancellation, with attempts still remaining)
returns the cancellation immediately. -/
theorem doAux_cancelled (outcomes : ℕ → AttemptOutcome) (cancel : ℕ → Bool) (maxD : ℕ) :
    ∀ (r a d : ℕ) (waits : List ℕ) (k : ℕ),
      a ≤ k → k < a + r →
      (∀ j, a ≤ j → j ≤ k → retriable (outcomes j) = true) →
      (∀ j, a ≤ j → j < k → cancel j = false) →
      cancel k = true →
      (doAux outcomes cancel maxD r a d waits).1 = .cancelled k := by
  intro r
  induction r with
  | zero =>
    intro a d waits k hak hka
    exact absurd hka (by omega)
  | succ r ih =>
    intro a d waits k hak hka hr hc hck
    by_cases hk : k = a
    · subst hk
      have hrk := hr k (le_refl k) (le_refl k)
      cases ho : outcomes k with
      | transportError => simp [doAux, ho, hck]
      | response s =>
        rw [ho] at hrk
        have hns : ¬ s < 500 := by simpa [retriable] using hrk
        simp [doAux, ho, hns, hck]
    · have hlt : a < k := by omega
      have hra := hr a (le_refl a) (by omega)
      have hca := hc a (le_refl a) hlt
      have hstep : doAux outcomes cancel maxD (r + 1) a d waits =
          doAux outcomes cancel maxD r (a + 1) (nextDelay d maxD) (waits ++ [d]) := by
        cases hoa : outcomes a with
        | transportError => simp [doAux, hoa, hca]
        | response s2 =>
          rw [hoa] at hra
          have hns : ¬ s2 < 500 := by simpa [retriable] using hra
          simp [doAux, hoa, hns, hca]
      rw [hstep]
      exact ih (a + 1) _ _ k (by omega) (by omega)
        (fun j h1 h2 => hr j (by omega) h2) (fun j h1 h2 => hc j (by omega) h2) hck

/-- C7: with a positive configured attempt budget, the retry executor (a)
makes exactly `maxAttempts` attempts when every one is a transport error or
status ≥ 500, failing with the last cause and the attempt count after
sleeping the doubling delay sequence capped at `maxDelay`; (b) returns the
first response with status < 500 (any 4xx included) as a success at its
attempt number, making no further attempts; (c) returns the cancellation
immediately when the context is cancelled during a backoff wait. -/
theorem C7_retry_executor (cfg : RetryConfig) (outcomes : ℕ → AttemptOutcome)
    (cancel : ℕ → Bool) (hA : 1 ≤ cfg.maxAttempts) :
    ((∀ k, 1 ≤ k → k ≤ cfg.maxAttempts.toNat → retriable (outcomes k) = true) →
     (∀ k, 1 ≤ k → k < cfg.maxAttempts.toNat → cancel k = false) →
     Do cfg outcomes cancel =
       (.failure (outcomes cfg.maxAttempts.toNat) cfg.maxAttempts.toNat,
        (List.range (cfg.maxAttempts.toNat - 1)).map
          (delayAt cfg.baseDelay cfg.maxDelay))) ∧
    (∀ k s, 1 ≤ k → k ≤ cfg.maxAttempts.toNat →
     outcomes k = .response s → s < 500 →
     (∀ j, 1 ≤ j → j < k → retriable (outcomes j) = true) →
     (∀ j, 1 ≤ j → j < k → cancel j = false) →
     (Do cfg outcomes cancel).1 = .success s k) ∧
    (∀ k, 1 ≤ k → k < cfg.maxAttempts.toNat →
     (∀ j, 1 ≤ j → j ≤ k → retriable (outcomes j) = true) →
     (∀ j, 1 ≤ j → j < k → cancel j = false) →
     cancel k = true →
     (Do cfg outcomes cancel).1 = .cancelled k) := by
  have hmax : ¬ cfg.maxAttempts ≤ 0 := by omega
  have htn : 1 ≤ cfg.maxAttempts.toNat := by omega
  have hDo : Do cfg outcomes cancel =
      doAux outcomes cancel cfg.maxDelay (cfg.maxAttempts.toNat - 1) 1 cfg.baseDelay [] := by
    unfold Do
    rw [if_neg hmax]
  refine ⟨?_, ?_, ?_⟩
  · intro hr hc
    rw [hDo, doAux_all_fail outcomes cancel cfg.maxDelay _ 1 cfg.baseDelay []
      (fun k h1 h2 => hr k h1 (by omega)) (fun k h1 h2 => hc k h1 (by omega))]
    have h1r : 1 + (cfg.maxAttempts.toNat - 1) = cfg.maxAttempts.toNat := by omega
    rw [h1r, List.nil_append]
  · intro k s h1 h2 ho hs hr hc
    rw [hDo]
    exact doAux_success outcomes cancel cfg.maxDelay _ 1 cfg.baseDelay [] k s h1
      (by omega) ho hs hr hc
  · intro k h1 h2 hr hc hck
    rw [hDo]
    exact doAux_cancelled outcomes cancel cfg.maxDelay _ 1 cfg.baseDelay [] k h1
      (by omega) hr hc hck

/-- Witness for C7: three attempts of persistent 503 with base delay 1 and
cap 5 fail after exactly 3 attempts with the last cause, sleeping 1 then 2
ticks. -/
theorem C7_witness :
    Do { maxAttempts := 3, baseDelay := 1, maxDelay := 5 }
      (fun _ => AttemptOutcome.response 503) (fun _ => false) =
    (.failure (.response 503) 3, [1, 2]) := by
  have h := (C7_retry_executor { maxAttempts := 3, baseDelay := 1, maxDelay := 5 }
    (fun _ => AttemptOutcome.response 503) (fun _ => false) (by norm_num)).1
    (fun k _ _ => by simp [retriable]) (fun k _ _ => rfl)
  rw [h]
  decide

/-- Characterization of the Go `strings.TrimPrefix`-based token check: the
trimmed token differs from the original header and equals `key` exactly
when the header is literally `pre ++ key` (for nonempty `pre`). -/
theorem TrimPrefix_eq_iff (s pre key : GoString) (hp : pre ≠ []) :
    (TrimPrefix s pre ≠ s ∧ TrimPrefix s pre = key) ↔ s = pre ++ key := by
  unfold TrimPrefix
  by_cases h : pre.isPrefixOf s
  · rw [if_pos h]
    obtain ⟨t, rfl⟩ := List.isPrefixOf_iff_prefix.mp h
    rw [List.drop_left]
    constructor
    · rintro ⟨-, rfl⟩
      rfl
    · intro heq
      have ht : t = key := by
        have happ : pre ++ t = pre ++ key := heq
        exact List.append_cancel_left happ
      subst ht
      refine ⟨?_, rfl⟩
      intro hcontra
      have hlen := congrArg List.length hcontra
      simp only [List.length_append] at hlen
      exact hp (List.length_eq_zero.mp (by omega))
  · rw [if_neg h]
    constructor
    · rintro ⟨hne, -⟩
      exact absurd rfl hne
    · rintro rfl
      exact absurd (List.isPrefixOf_iff_prefix.mpr ⟨key, rfl⟩) h

/-- C9 (amended): with an empty API key the auth middleware passes every
request through; with a key set, every request whose path is not `/health`
is answered 401 unless its Authorization header is exactly `Bearer <key>`
(in particular `Basic <key>` gets 401), and an authorized request reaches
the CORS layer; every preflight OPTIONS request that passes the auth layer
(empty key, `/health`, or a valid Bearer header — the auth middleware runs
first, so an unauthorized preflight is rejected with 401) is answered 200
with the three CORS headers set and without invoking the inner handler
(the response is a closed form independent of the mux). -/
theorem C9_amended_auth_cors (apiKey corsOrigin : GoString)
    (mux next : HttpRequest → HttpResponse) (r : HttpRequest) :
    (apiKey = [] → authMiddleware apiKey next r = next r) ∧
    (apiKey ≠ [] → r.path ≠ "/health".toList →
      (r.authorization ≠ "Bearer ".toList ++ apiKey →
        serveRequest apiKey corsOrigin mux r = writeError 401) ∧
      (r.authorization = "Bearer ".toList ++ apiKey →
        serveRequest apiKey corsOrigin mux r = corsMiddleware mux corsOrigin r)) ∧
    (r.method = "OPTIONS".toList →
      (apiKey = [] ∨ r.path = "/health".toList ∨
        r.authorization = "Bearer ".toList ++ apiKey) →
      serveRequest apiKey corsOrigin mux r =
        { status := 200, headers := corsHeaders corsOrigin }) := by
  have hB : ("Bearer ".toList : GoString) ≠ [] := by decide
  refine ⟨?_, ?_, ?_⟩
  · intro h
    unfold authMiddleware
    rw [if_pos (Or.inl h)]
  · intro hk hp
    unfold serveRequest authMiddleware
    rw [if_neg (by push_neg; exact ⟨hk, hp⟩)]
    constructor
    · intro hne
      by_cases hemp : r.authorization = []
      · rw [if_pos hemp]
      · rw [if_neg hemp]
        have hcond : TrimPrefix r.authorization ("Bearer ".toList) = r.authorization ∨
            TrimPrefix r.authorization ("Bearer ".toList) ≠ apiKey := by
          by_contra hcon
          push_neg at hcon
          exact hne ((TrimPrefix_eq_iff r.authorization ("Bearer ".toList) apiKey hB).mp
            ⟨hcon.1, hcon.2⟩)
        rw [if_pos hcond]
    · intro heq
      have hne : r.authorization ≠ [] := by
        rw [heq]
        simp [hB]
      rw [if_neg hne]
      have hcond := (TrimPrefix_eq_iff r.authorization ("Bearer ".toList) apiKey hB).mpr heq
      have hnot : ¬(TrimPrefix r.authorization ("Bearer ".toList) = r.authorization ∨
          TrimPrefix r.authorization ("Bearer ".toList) ≠ apiKey) := by
        push_neg
        exact hcond
      rw [if_neg hnot]
  · intro hm hpass
    have hcors : corsMiddleware mux corsOrigin r =
        { status := 200, headers := corsHeaders corsOrigin } := by
      unfold corsMiddleware
      rw [if_pos hm]
    rcases hpass with h | h | h
    · unfold serveRequest authMiddleware
      rw [if_pos (Or.inl h)]
      exact hcors
    · unfold serveRequest authMiddleware
      rw [if_pos (Or.inr h)]
      exact hcors
    · by_cases hkey : apiKey = []
      · unfold serveRequest authMiddleware
        rw [if_pos (Or.inl hkey)]
        exact hcors
      · by_cases hp : r.path = "/health".toList
        · unfold serveRequest authMiddleware
          rw [if_pos (Or.inr hp)]
          exact hcors
        · unfold serveRequest authMiddleware
          rw [if_neg (by push_neg; exact ⟨hkey, hp⟩)]
          have hne : r.authorization ≠ [] := by
            rw [h]
            simp [hB]
          rw [if_neg hne]
          have hcond := (TrimPrefix_eq_iff r.authorization ("Bearer ".toList) apiKey hB).mpr h
          have hnot : ¬(TrimPrefix r.authorization ("Bearer ".toList) = r.authorization ∨
              TrimPrefix r.authorization ("Bearer ".toList) ≠ apiKey) := by
            push_neg
            exact hcond
          rw [if_neg hnot]
          exact hcors

/-- C9 counterexample: with the API key set to `s`, a preflight
`OPTIONS /v1/prices/latest` without an Authorization header is answered 401
by the auth middleware (which wraps the CORS middleware), not 200. -/
theorem C9_counterexample :
    serveRequest ("s".toList) ("*".toList) muxStub
      { method := "OPTIONS".toList, path := "/v1/prices/latest".toList,
        authorization := [] } = writeError 401 ∧
    (writeError 401).status ≠ 200 := by
  constructor
  · decide
  · decide

/-- Witness for C9: with key `s`, `Basic s` is rejected with 401 while
`Bearer s` reaches the CORS layer. -/
theorem C9_amended_witness :
    serveRequest ("s".toList) ("*".toList) muxStub
      { method := "GET".toList, path := "/v1/trades/stats".toList,
        authorization := "Basic s".toList } = writeError 401 ∧
    serveRequest ("s".toList) ("*".toList) muxStub
      { method := "GET".toList, path := "/v1/trades/stats".toList,
        authorization := "Bearer s".toList } =
      corsMiddleware muxStub ("*".toList)
        { method := "GET".toList, path := "/v1/trades/stats".toList,
          authorization := "Bearer s".toList } := by
  constructor
  · exact ((C9_amended_auth_cors ("s".toList) ("*".toList) muxStub muxStub
      { method := "GET".toList, path := "/v1/trades/stats".toList,
        authorization := "Basic s".toList }).2.1
      (by decide) (by decide)).1 (by decide)
  · exact ((C9_amended_auth_cors ("s".toList) ("*".toList) muxStub muxStub
      { method := "GET".toList, path := "/v1/trades/stats".toList,
        authorization := "Bearer s".toList }).2.1
      (by decide) (by decide)).2 (by decide)

/-- The loop indices are strictly increasing. -/
theorem gridIndices_pairwise (n : ℤ) : (gridIndices n).Pairwise (· < ·) := by
  unfold gridIndices
  refine List.Pairwise.filter _ ?_
  exact List.Pairwise.map (fun k : ℕ => (k : ℤ) - n / 2)
    (fun a b hab => sub_lt_sub_right (Int.ofNat_lt.mpr hab) (n / 2))
    (List.pairwise_lt_range _)

/-- Bounds and the even-count hole of the loop indices. -/
theorem gridIndices_mem (n : ℤ) {i : ℤ} (hi : i ∈ gridIndices n) :
    ¬(i = 0 ∧ n % 2 = 0) := by
  unfold gridIndices at hi
  have h2 := (List.mem_filter.mp hi).2
  intro hcon
  rw [hcon.1, hcon.2] at h2
  simp at h2

/-- The pre-filter index list is strictly increasing. -/
theorem gridIndicesRaw_pairwise (n : ℤ) :
    ((List.range (2 * (n / 2).toNat + 1)).map
      (fun k : ℕ => (k : ℤ) - n / 2)).Pairwise (· < ·) :=
  List.Pairwise.map (fun k : ℕ => (k : ℤ) - n / 2)
    (fun a b hab => sub_lt_sub_right (Int.ofNat_lt.mpr hab) (n / 2))
    (List.pairwise_lt_range _)

/-- The loop produces exactly `n` indices for every accepted level count. -/
theorem gridIndices_length (n : ℤ) (hn : 2 ≤ n) : (gridIndices n).length = n.toNat := by
  unfold gridIndices
  by_cases he : n % 2 = 0
  · have hnodup : ((List.range (2 * (n / 2).toNat + 1)).map
        (fun k : ℕ => (k : ℤ) - n / 2)).Nodup :=
      List.Pairwise.imp (fun hab => ne_of_lt hab) (gridIndicesRaw_pairwise n)
    have h0mem : (0 : ℤ) ∈ (List.range (2 * (n / 2).toNat + 1)).map
        (fun k : ℕ => (k : ℤ) - n / 2) := by
      refine List.mem_map.mpr ⟨(n / 2).toNat, List.mem_range.mpr (by omega), by omega⟩
    have hfc : ((List.range (2 * (n / 2).toNat + 1)).map
          (fun k : ℕ => (k : ℤ) - n / 2)).filter (fun i => decide (¬(i = 0 ∧ n % 2 = 0))) =
        ((List.range (2 * (n / 2).toNat + 1)).map
          (fun k : ℕ => (k : ℤ) - n / 2)).filter (fun i => i != 0) := by
      refine List.filter_congr ?_
      intro x _
      by_cases hx : x = 0 <;> simp [hx, he]
    rw [hfc, ← List.Nodup.erase_eq_filter hnodup 0, List.length_erase_of_mem h0mem,
      List.length_map, List.length_range]
    omega
  · have hfc : ((List.range (2 * (n / 2).toNat + 1)).map
          (fun k : ℕ => (k : ℤ) - n / 2)).filter (fun i => decide (¬(i = 0 ∧ n % 2 = 0))) =
        (List.range (2 * (n / 2).toNat + 1)).map (fun k : ℕ => (k : ℤ) - n / 2) := by
      refine List.filter_eq_self.mpr ?_
      intro a _
      simp [he]
    rw [hfc, List.length_map, List.length_range]
    omega

/-- The level price is strictly monotone in the loop index. -/
theorem mkGridLevel_price_lt (p : GridParams) (hc : 0 < p.centerPrice)
    (hs : 0 < p.spacingPercent) {i j : ℤ} (hij : i < j) :
    (mkGridLevel p i).price < (mkGridLevel p j).price := by
  have hr : 1 < gridRatio p := by
    unfold gridRatio
    have : 0 < p.spacingPercent / 100 := by positivity
    linarith
  simp only [mkGridLevel]
  exact mul_lt_mul_of_pos_left (zpow_lt_zpow_right₀ hr hij) hc

/-- assignIndices keeps the length. -/
theorem assignIndices_length (l : List GridLevel) :
    (assignIndices l).length = l.length := by
  simp [assignIndices]

/-- assignIndices rewrites only the index field, to the position. -/
theorem assignIndices_getElem (l : List GridLevel) (k : ℕ) (hk1 : k < l.length)
    (hk : k < (assignIndices l).length) :
    (assignIndices l)[k] = { l[k] with index := (k : ℤ) } := by
  simp [assignIndices]

/-- Updating the index leaves the price unchanged. -/
theorem index_update_price (x : GridLevel) (k : ℤ) :
    ({ x with index := k }).price = x.price := rfl

/-- Updating the index leaves the side unchanged. -/
theorem index_update_side (x : GridLevel) (k : ℤ) :
    ({ x with index := k }).side = x.side := rfl

/-- Updating the index leaves the quantity unchanged. -/
theorem index_update_quantity (x : GridLevel) (k : ℤ) :
    ({ x with index := k }).quantity = x.quantity := rfl

/-- Updating the index leaves the fill flag unchanged. -/
theorem index_update_filled (x : GridLevel) (k : ℤ) :
    ({ x with index := k }).filled = x.filled := rfl

/-- The generated level for index `i` in expanded form. -/
theorem mkGridLevel_fields (p : GridParams) (i : ℤ) :
    (mkGridLevel p i).price = p.centerPrice * gridRatio p ^ i ∧
    (mkGridLevel p i).side = (if i < 0 then Side.buy else Side.sell) ∧
    (mkGridLevel p i).quantity =
      p.amountPerGrid / (p.centerPrice * gridRatio p ^ i) ∧
    (mkGridLevel p i).filled = false := by
  refine ⟨rfl, rfl, rfl, rfl⟩

/-- C1 (amended): for every accepted parameter set (center > 0, n ≥ 2,
spacing > 0, amount > 0) CalculateGridLevels returns exactly `n` levels,
strictly ascending by price, with dense indices `0..n-1`; every level has
price `center × (1+spacing/100)^i > 0` for some loop index `i` and
quantity `amountPerGrid / price` and starts unfilled; buy levels are
strictly below the center and sell levels at or above it — strictly above
when `n` is even, while an odd `n` places one sell exactly at the center
(the `i = 0` level). Violating any precondition yields an error. -/
theorem C1_amended_grid_levels (p : GridParams) :
    (0 < p.centerPrice → 2 ≤ p.levelCount → 0 < p.spacingPercent →
     0 < p.amountPerGrid →
      ∃ g, CalculateGridLevels p = .ok g ∧
        g.length = p.levelCount.toNat ∧
        g.Pairwise (fun x y => x.price < y.price) ∧
        (∀ (k : ℕ) (hk : k < g.length), (g[k]).index = (k : ℤ)) ∧
        (∀ lv ∈ g, ∃ i : ℤ, lv.price = p.centerPrice * gridRatio p ^ i ∧
          0 < lv.price ∧ lv.quantity = p.amountPerGrid / lv.price ∧
          lv.filled = false) ∧
        (∀ lv ∈ g, lv.side = Side.buy → lv.price < p.centerPrice) ∧
        (∀ lv ∈ g, lv.side = Side.sell → p.centerPrice ≤ lv.price) ∧
        (p.levelCount % 2 = 0 →
          ∀ lv ∈ g, lv.side = Side.sell → p.centerPrice < lv.price)) ∧
    ((p.centerPrice ≤ 0 ∨ p.levelCount < 2 ∨ p.spacingPercent ≤ 0 ∨
      p.amountPerGrid ≤ 0) → ∃ e, CalculateGridLevels p = .error e) := by
  constructor
  · intro hc hn hs ha
    have hr1 : 1 < gridRatio p := by
      unfold gridRatio
      have hpos : 0 < p.spacingPercent / 100 := by positivity
      linarith
    have hr0 : 0 < gridRatio p := lt_trans one_pos hr1
    set raw := (gridIndices p.levelCount).map (mkGridLevel p) with hraw
    have hpw : raw.Pairwise (fun a b => a.price < b.price) :=
      List.Pairwise.map (mkGridLevel p)
        (fun i j hij => mkGridLevel_price_lt p hc hs hij) (gridIndices_pairwise _)
    have hsorted : List.Sorted (fun a b : GridLevel => a.price ≤ b.price) raw :=
      List.Pairwise.imp (fun h => le_of_lt h) hpw
    have hok : CalculateGridLevels p = .ok (assignIndices raw) := by
      unfold CalculateGridLevels
      rw [if_neg (by linarith), if_neg (by omega), if_neg (by linarith),
        if_neg (by linarith), ← hraw, hsorted.insertionSort_eq]
    have hlenraw : raw.length = p.levelCount.toNat := by
      rw [hraw, List.length_map, gridIndices_length _ hn]
    have hlen : (assignIndices raw).length = p.levelCount.toNat := by
      rw [assignIndices_length, hlenraw]
    have hget : ∀ (k : ℕ) (hk : k < (assignIndices raw).length),
        ∃ (hk2 : k < (gridIndices p.levelCount).length),
          (assignIndices raw)[k] =
            { mkGridLevel p ((gridIndices p.levelCount)[k]) with
              index := (k : ℤ) } := by
      intro k hk
      have hk1 : k < raw.length := by rwa [assignIndices_length] at hk
      have hk2 : k < (gridIndices p.levelCount).length := by
        rwa [hraw, List.length_map] at hk1
      refine ⟨hk2, ?_⟩
      rw [assignIndices_getElem raw k hk1 hk]
      have hmapget : raw[k] = mkGridLevel p ((gridIndices p.levelCount)[k]) := by
        simp only [hraw]
        exact List.getElem_map _
      exact congrArg (fun z : GridLevel => { z with index := (k : ℤ) }) hmapget
    refine ⟨assignIndices raw, hok, hlen, ?_, ?_, ?_, ?_, ?_, ?_⟩
    · rw [List.pairwise_iff_getElem]
      intro i j hi hj hij
      obtain ⟨hi2, hei⟩ := hget i hi
      obtain ⟨hj2, hej⟩ := hget j hj
      rw [hei, hej, index_update_price, index_update_price]
      have hlt : (gridIndices p.levelCount)[i] <
          (gridIndices p.levelCount)[j] :=
        List.pairwise_iff_getElem.mp (gridIndices_pairwise _) i j hi2 hj2 hij
      exact mkGridLevel_price_lt p hc hs hlt
    · intro k hk
      obtain ⟨hk2, he⟩ := hget k hk
      rw [he]
    · intro lv hlv
      obtain ⟨k, hk, hkeq⟩ := List.mem_iff_getElem.mp hlv
      obtain ⟨hk2, he⟩ := hget k hk
      rw [← hkeq, he]
      refine ⟨(gridIndices p.levelCount)[k], ?_, ?_, ?_, ?_⟩
      · rw [index_update_price, (mkGridLevel_fields p _).1]
      · rw [index_update_price, (mkGridLevel_fields p _).1]
        exact mul_pos hc (zpow_pos hr0 _)
      · rw [index_update_quantity, index_update_price,
          (mkGridLevel_fields p _).2.2.1, (mkGridLevel_fields p _).1]
      · rw [index_update_filled, (mkGridLevel_fields p _).2.2.2]
    · intro lv hlv hside
      obtain ⟨k, hk, hkeq⟩ := List.mem_iff_getElem.mp hlv
      obtain ⟨hk2, he⟩ := hget k hk
      rw [← hkeq, he, index_update_price, (mkGridLevel_fields p _).1]
      rw [← hkeq, he, index_update_side, (mkGridLevel_fields p _).2.1] at hside
      by_cases hneg : (gridIndices p.levelCount)[k] < 0
      · calc p.centerPrice * gridRatio p ^ ((gridIndices p.levelCount)[k])
            < p.centerPrice * gridRatio p ^ (0 : ℤ) :=
              mul_lt_mul_of_pos_left (zpow_lt_zpow_right₀ hr1 hneg) hc
          _ = p.centerPrice := by rw [zpow_zero, mul_one]
      · rw [if_neg hneg] at hside
        exact absurd hside (by simp)
    · intro lv hlv hside
      obtain ⟨k, hk, hkeq⟩ := List.mem_iff_getElem.mp hlv
      obtain ⟨hk2, he⟩ := hget k hk
      rw [← hkeq, he, index_update_price, (mkGridLevel_fields p _).1]
      rw [← hkeq, he, index_update_side, (mkGridLevel_fields p _).2.1] at hside
      by_cases hneg : (gridIndices p.levelCount)[k] < 0
      · rw [if_pos hneg] at hside
        exact absurd hside (by simp)
      · push_neg at hneg
        calc p.centerPrice = p.centerPrice * gridRatio p ^ (0 : ℤ) := by
              rw [zpow_zero, mul_one]
          _ ≤ p.centerPrice * gridRatio p ^ ((gridIndices p.levelCount)[k]) :=
              mul_le_mul_of_nonneg_left (zpow_le_zpow_right₀ hr1.le hneg) hc.le
    · intro heven lv hlv hside
      obtain ⟨k, hk, hkeq⟩ := List.mem_iff_getElem.mp hlv
      obtain ⟨hk2, he⟩ := hget k hk
      have hmem : (gridIndices p.levelCount)[k] ∈ gridIndices p.levelCount :=
        List.getElem_mem hk2
      have hne0 : (gridIndices p.levelCount)[k] ≠ 0 := by
        intro h0
        exact gridIndices_mem _ hmem ⟨h0, heven⟩
      rw [← hkeq, he, index_update_price, (mkGridLevel_fields p _).1]
      rw [← hkeq, he, index_update_side, (mkGridLevel_fields p _).2.1] at hside
      by_cases hneg : (gridIndices p.levelCount)[k] < 0
      · rw [if_pos hneg] at hside
        exact absurd hside (by simp)
      · have hposi : 0 < (gridIndices p.levelCount)[k] := by omega
        calc p.centerPrice = p.centerPrice * gridRatio p ^ (0 : ℤ) := by
              rw [zpow_zero, mul_one]
          _ < p.centerPrice * gridRatio p ^ ((gridIndices p.levelCount)[k]) :=
              mul_lt_mul_of_pos_left (zpow_lt_zpow_right₀ hr1 hposi) hc
  · intro hbad
    unfold CalculateGridLevels
    by_cases h1 : p.centerPrice ≤ 0
    · rw [if_pos h1]
      exact ⟨_, rfl⟩
    · rw [if_neg h1]
      by_cases h2 : p.levelCount < 2
      · rw [if_pos h2]
        exact ⟨_, rfl⟩
      · rw [if_neg h2]
        by_cases h3 : p.spacingPercent ≤ 0
        · rw [if_pos h3]
          exact ⟨_, rfl⟩
        · rw [if_neg h3]
          have h4 : p.amountPerGrid ≤ 0 := by
            rcases hbad with h | h | h | h
            exacts [absurd h h1, absurd h h2, absurd h h3, h]
          rw [if_pos h4]
          exact ⟨_, rfl⟩

/-- Witness for C1: the accepted odd parameter set yields a grid, and a
negative center price is rejected. -/
theorem C1_amended_witness :
    (CalculateGridLevels oddGridParams).isOk = true ∧
    (∃ e, CalculateGridLevels
      { centerPrice := -1, levelCount := 10, spacingPercent := 2,
        amountPerGrid := 100 } = .error e) := by
  constructor
  · obtain ⟨g, hg, -⟩ := (C1_amended_grid_levels oddGridParams).1
      (by norm_num [oddGridParams]) (by norm_num [oddGridParams])
      (by norm_num [oddGridParams]) (by norm_num [oddGridParams])
    rw [hg]
    rfl
  · exact (C1_amended_grid_levels _).2 (Or.inl (by norm_num))

/-- C1 counterexample: with the odd level count 3 (center 100, 10% spacing)
the generated grid contains a sell level priced exactly at the center (the
`i = 0` level), so not every sell level is strictly above the center. -/
theorem C1_counterexample :
    CalculateGridLevels oddGridParams = .ok oddGridLevels ∧
    oddGridLevels[1].side = Side.sell ∧
    oddGridLevels[1].price = oddGridParams.centerPrice := by
  refine ⟨?_, rfl, by norm_num [oddGridLevels, oddGridParams]⟩
  norm_num [CalculateGridLevels, oddGridParams, gridIndices, mkGridLevel, gridRatio,
    assignIndices, List.insertionSort, List.orderedInsert, oddGridLevels,
    List.range_succ, List.enum, List.enumFrom]
